import Mathlib

/-!
Verification of the `ocrosby/rpi` rating engine against its specification.

The Python sources are shallowly embedded below:
* `Match` and its predicates follow `src/ripper/models/match.py` (the plain
  dataclass model; `src/rpi/models/match.py` is the same model without the
  defaulting constructor).
* The counting and rating functions follow `src/rpi/calculations.py`.
* `list_team_names` follows `src/ripper/utils.py`.
* The ranking indices follow `src/ripper/indices/wins.py`,
  `src/ripper/indices/draws.py` and
  `src/build/lib/ripper/indices/colley_matrix.py`.
* The Elo functions follow `src/ripper/elo.py`.
* The pydantic construction pipeline follows
  `src/build/lib/ripper/models/match.py` and `score.py`.

Python floats are modelled exactly: rationals (`ℚ`) for the arithmetic that
only uses field operations, reals (`ℝ`) where `10 ** x` forces a real power.
Fallible Python code (raised exceptions) is modelled with `Except String`.
-/

deriving instance DecidableEq for Except

/-- Python's `round` to an integer: round-half-to-even (banker's rounding),
on exact rationals. -/
def pyRound (x : ℚ) : ℤ :=
  if Int.fract x = 1/2 then (if Even ⌊x⌋ then ⌊x⌋ else ⌊x⌋ + 1) else round x

/-- Python's `round(x, ndigits)` on exact rationals: scale, round half to
even, unscale. -/
def roundTo (nd : ℕ) (x : ℚ) : ℚ :=
  (pyRound (x * 10 ^ nd) : ℚ) / 10 ^ nd

/-- The match record of `src/ripper/models/match.py` (a Python dataclass).
Scores are Python ints, the game state is one of `"pre"`, `"live"`,
`"final"`. -/
structure Match where
  home_team : String
  away_team : String
  home_score : ℤ
  away_score : ℤ
  start_date : String
  start_time : String
  game_state : String
deriving DecidableEq, Repr

/-- `Match.__init__`: `start_date`/`start_time` default to the current
clock (passed here explicitly as `nowd`/`nowt`, since the embedding is
pure), and `game_state` defaults to `'final' if not game_state else
game_state`, i.e. both an omitted argument (`none`) and a falsy one
(`some ""`) yield `"final"`. -/
def mkMatch (home away : String) (hs av : ℤ) (sd st : Option String)
    (gs : Option String) (nowd nowt : String) : Match :=
  { home_team := home
    away_team := away
    home_score := hs
    away_score := av
    start_date := match sd with | none => nowd | some s => if s = "" then nowd else s
    start_time := match st with | none => nowt | some s => if s = "" then nowt else s
    game_state := match gs with | none => "final" | some s => if s = "" then "final" else s }

/-- `Match.is_live`. -/
def Match.is_live (m : Match) : Bool := m.game_state == "live"

/-- `Match.is_finished`. -/
def Match.is_finished (m : Match) : Bool := m.game_state == "final"

/-- `Match.is_upcoming`. -/
def Match.is_upcoming (m : Match) : Bool := m.game_state == "pre"

/-- `Match.winner`: `None` unless finished with strictly higher score on one
side. -/
def Match.winner (m : Match) : Option String :=
  if !m.is_finished then none
  else if m.home_score > m.away_score then some m.home_team
  else if m.away_score > m.home_score then some m.away_team
  else none

/-- `Match.loser`. -/
def Match.loser (m : Match) : Option String :=
  if !m.is_finished then none
  else if m.home_score < m.away_score then some m.home_team
  else if m.away_score < m.home_score then some m.away_team
  else none

/-- `Match.is_draw`: finished and equal scores. -/
def Match.is_draw (m : Match) : Bool :=
  if !m.is_finished then false else m.home_score == m.away_score

/-- `Match.contains`: `team in [home_team, away_team]`. -/
def Match.contains (m : Match) (team : String) : Bool :=
  team == m.home_team || team == m.away_team

/-- The `skip_team_name and len(skip_team_name) > 0 and
match.contains(skip_team_name)` guard shared by the three counting
functions in `src/rpi/calculations.py`. -/
def skipGuard (skip : Option String) (m : Match) : Bool :=
  match skip with
  | none => false
  | some s => !(s == "") && m.contains s

/-- `get_wins_for_team` (src/rpi/calculations.py): finished matches
containing the team, not containing the active skip team, won by the
team. -/
def get_wins_for_team (ms : List Match) (team : String)
    (skip : Option String) : ℕ :=
  ms.countP fun m =>
    m.is_finished && m.contains team && !(skipGuard skip m) && (m.winner == some team)

/-- `get_losses_for_team` (src/rpi/calculations.py). -/
def get_losses_for_team (ms : List Match) (team : String)
    (skip : Option String) : ℕ :=
  ms.countP fun m =>
    m.is_finished && m.contains team && !(skipGuard skip m) && (m.loser == some team)

/-- `get_draws_for_team` (src/rpi/calculations.py). -/
def get_draws_for_team (ms : List Match) (team : String)
    (skip : Option String) : ℕ :=
  ms.countP fun m =>
    m.is_finished && m.contains team && !(skipGuard skip m) && m.is_draw

/-- `get_opponents` (src/rpi/calculations.py): a match is skipped only when
it is neither finished nor contains the team; then the away name is
appended when the home side is the team, and the home name when the away
side is the team (both, for a degenerate self-match). -/
def get_opponents : List Match → String → List String
  | [], _ => []
  | m :: rest, team =>
    (if !m.is_finished && !m.contains team then []
     else (if m.home_team = team then [m.away_team] else [])
       ++ (if m.away_team = team then [m.home_team] else []))
    ++ get_opponents rest team

/-- `get_meeting_count` (src/rpi/calculations.py): finished matches
containing both teams. -/
def get_meeting_count (team1 team2 : String) (ms : List Match) : ℕ :=
  ms.countP fun m => m.is_finished && m.contains team1 && m.contains team2

/-- `get_matches_played_by_team` (src/rpi/calculations.py). -/
def get_matches_played_by_team (team : String) (ms : List Match) : List Match :=
  ms.filter fun m => m.contains team

/-- `get_total_matches_played_by_team` (src/rpi/calculations.py). -/
def get_total_matches_played_by_team (team : String) (ms : List Match) : ℕ :=
  (get_matches_played_by_team team ms).length

/-- `wp` (src/rpi/calculations.py, lines 155-173). The source divides by
`wins + losses + draws` with NO zero guard, so a team with zero decided
ms raises `ZeroDivisionError`; the error case is modelled with
`Except.error`. -/
def wp (ms : List Match) (target : String) (skip : Option String)
    (nd : ℕ) : Except String ℚ :=
  let wins := get_wins_for_team ms target skip
  let losses := get_losses_for_team ms target skip
  let draws := get_draws_for_team ms target skip
  let total := wins + losses + draws
  if total = 0 then Except.error "ZeroDivisionError"
  else Except.ok (roundTo nd (((wins : ℚ) + (draws : ℚ) / 2) / (total : ℚ)))

/-- `owp` (src/rpi/calculations.py, lines 176-215). The Python dict keyed
by opponent name holds, for each distinct opponent with a nonzero decided
count, that opponent's unrounded win percentage with the target team
skipped; `List.dedup` stands in for the dict keys (the two keep different
occurrence orders, which is immaterial to the sums below). The final
division IS guarded in the source: zero total meetings returns 0.
`owp_entry` is the body of the dict comprehension: `none` stands for the
`continue` on a zero decided count. -/
def owp_entry (ms : List Match) (target o : String) : Option (String × ℚ) :=
  let w := get_wins_for_team ms o (some target)
  let l := get_losses_for_team ms o (some target)
  let d := get_draws_for_team ms o (some target)
  let total := w + l + d
  if total = 0 then none
  else some (o, ((w : ℚ) + (d : ℚ) / 2) / (total : ℚ))

def owp (ms : List Match) (target : String) (nd : ℕ) : ℚ :=
  let dict := (get_opponents ms target).dedup.filterMap (owp_entry ms target)
  let sum_so_far : ℚ := (dict.map fun p => p.2 * (get_meeting_count target p.1 ms : ℚ)).sum
  let number_of_matches : ℕ := (dict.map fun p => get_meeting_count target p.1 ms).sum
  if number_of_matches = 0 then 0
  else roundTo nd (sum_so_far / (number_of_matches : ℚ))

/-- `oowp` (src/rpi/calculations.py, lines 218-243). Each distinct
opponent's (already rounded) `owp` is weighted by the meeting count; the
final division has NO zero guard in the source, so zero total meetings
raises `ZeroDivisionError`. -/
def oowp (ms : List Match) (target : String) (nd : ℕ) : Except String ℚ :=
  let dict := (get_opponents ms target).dedup.map fun o => (o, owp ms o nd)
  let accumulator : ℚ := (dict.map fun p => p.2 * (get_meeting_count target p.1 ms : ℚ)).sum
  let number_of_matches : ℕ := (dict.map fun p => get_meeting_count target p.1 ms).sum
  if number_of_matches = 0 then Except.error "ZeroDivisionError"
  else Except.ok (roundTo nd (accumulator / (number_of_matches : ℚ)))

/-- `rpi` (src/rpi/calculations.py): the 25/50/25 blend, rounded. -/
def rpi (wp_value owp_value oowp_value : ℚ) (nd : ℕ) : ℚ :=
  roundTo nd (wp_value * (1/4) + owp_value * (1/2) + oowp_value * (1/4))

/-- Python's string comparison: lexicographic over the code-point
sequence — stated on `String.data` so that it evaluates inside the
kernel. -/
def nameLe (a b : String) : Prop := a.data ≤ b.data

instance : DecidableRel nameLe := fun a b => by unfold nameLe; infer_instance

/-- `list_team_names` (src/ripper/utils.py): the set of home/away names,
sorted ascending. `dedup` plays the role of the Python set; Python's
stable `sort` on distinct names is order-equivalent to `insertionSort`. -/
def list_team_names (ms : List Match) : List String :=
  List.insertionSort nameLe (ms.flatMap fun m => [m.home_team, m.away_team]).dedup

/-- Sort key of `WinsIndex.calculate`: Python's
`key=lambda x: (-x[2], x[1])`, i.e. wins descending then name ascending. -/
def winsRel (a b : ℕ × String × ℕ) : Prop :=
  b.2.2 < a.2.2 ∨ (a.2.2 = b.2.2 ∧ nameLe a.2.1 b.2.1)

instance : DecidableRel winsRel := fun a b => by unfold winsRel; infer_instance

/-- The `team_wins` dict of `WinsIndex.calculate`
(src/ripper/indices/wins.py): initialized to 0 for every team name, then
`team_wins[match.winner()] += 1` for EVERY match — when `winner()` is
`None` (a draw, or an unfinished match) the lookup raises `KeyError`. -/
def wins_counts (ms : List Match) (teams : List String) :
    Except String (String → ℕ) :=
  ms.foldlM (fun counts m =>
    match m.winner with
    | none => Except.error "KeyError"
    | some w =>
      if w ∈ teams then Except.ok (fun x => if x = w then counts x + 1 else counts x)
      else Except.error "KeyError") (fun _ => 0)

/-- `WinsIndex.calculate` (src/ripper/indices/wins.py): ranks are assigned
by `enumerate` over the dict BEFORE the final `sorted(...)`, so the rank
field records the team's position in alphabetical order, not the sorted
position. -/
def wins_index_calculate (ms : List Match) :
    Except String (List (ℕ × String × ℕ)) :=
  match wins_counts ms (list_team_names ms) with
  | Except.error e => Except.error e
  | Except.ok counts =>
    Except.ok (List.insertionSort winsRel
      ((list_team_names ms).enum.map fun p => (p.1 + 1, p.2, counts p.2)))

/-- The `team_draws` dict of `DrawsIndex.calculate`
(src/ripper/indices/draws.py): both participants of a drawn match are
incremented (home first, then away — a degenerate self-match counts
twice). Team names are always keys of the dict, so no `KeyError` here. -/
def draws_counts (ms : List Match) : String → ℕ :=
  ms.foldl (fun counts m =>
    if m.is_draw then
      let c1 := fun x => if x = m.home_team then counts x + 1 else counts x
      fun x => if x = m.away_team then c1 x + 1 else c1 x
    else counts) (fun _ => 0)

/-- `DrawsIndex.calculate` (src/ripper/indices/draws.py). Line 31 computes
`sorted(team_draws.items(), key=lambda x: (x[2], x[1]))`: the key indexes
a 2-tuple `(team, draws)` at position 2, which raises `IndexError` as soon
as the dict is nonempty (on an empty dict `sorted` never calls the key and
the function returns `[]`). The sorted value is then discarded anyway and
the returned list enumerates the dict in team-name order. -/
def draws_index_calculate (ms : List Match) :
    Except String (List (ℕ × String × ℕ)) :=
  let teams := list_team_names ms
  let counts := draws_counts ms
  if teams.isEmpty then
    Except.ok (teams.enum.map fun p => (p.1 + 1, p.2, counts p.2))
  else Except.error "IndexError: tuple index out of range"

/-- Point update of the Colley `b` vector (`b[i] += d`). -/
def upd1 (f : ℕ → ℚ) (i : ℕ) (d : ℚ) : ℕ → ℚ :=
  fun x => if x = i then f x + d else f x

/-- Point update of the Colley `C` matrix (`C[i, j] += d`). -/
def upd2 (f : ℕ → ℕ → ℚ) (i j : ℕ) (d : ℚ) : ℕ → ℕ → ℚ :=
  fun x y => if x = i ∧ y = j then f x y + d else f x y

/-- One match of the Colley assembly loop
(src/build/lib/ripper/indices/colley_matrix.py, lines 28-42): both
diagonals `+1`, both cross entries `-1`; `b` gets `+0.5` home / `-0.5`
away when `home_score > away_score`, and `-0.5` home / `+0.5` away
OTHERWISE — the `else` branch covers away wins and draws alike, and no
finished-status check is made. -/
def colley_update (hi ai : ℕ) (hs av : ℤ) (C : ℕ → ℕ → ℚ) (b : ℕ → ℚ) :
    ((ℕ → ℕ → ℚ) × (ℕ → ℚ)) :=
  (upd2 (upd2 (upd2 (upd2 C hi hi 1) ai ai 1) hi ai (-1)) ai hi (-1),
   if hs > av then upd1 (upd1 b hi (1/2)) ai (-(1/2))
   else upd1 (upd1 b hi (-(1/2))) ai (1/2))

/-- The assembled Colley system: `C = 2·I`, `b = 1`, then one
`colley_update` per match, teams indexed by their position in the sorted
team list. Indices are kept as naturals here; `colleyC`/`colleyB` restrict
to the square system actually solved. -/
def colley_build (ms : List Match) : ((ℕ → ℕ → ℚ) × (ℕ → ℚ)) :=
  let teams := list_team_names ms
  ms.foldl (fun st m =>
      colley_update (teams.indexOf m.home_team) (teams.indexOf m.away_team)
        m.home_score m.away_score st.1 st.2)
    ((fun i j => if i = j then 2 else 0), (fun _ => 1))

/-- Dimension of the Colley system: the number of distinct team names. -/
def colleyN (ms : List Match) : ℕ := (list_team_names ms).length

/-- The Colley coefficient matrix as an `n × n` matrix. -/
def colleyC (ms : List Match) :
    Matrix (Fin (colleyN ms)) (Fin (colleyN ms)) ℚ :=
  Matrix.of fun i j => (colley_build ms).1 i.1 j.1

/-- The Colley right-hand side vector. -/
def colleyB (ms : List Match) : Fin (colleyN ms) → ℚ :=
  fun i => (colley_build ms).2 i.1

/-- `numpy.linalg.solve`: raises `LinAlgError("Singular matrix")` on a
singular system, otherwise returns the exact solution
`C⁻¹ b = det(C)⁻¹ · adj(C) · b`. -/
def npSolve (n : ℕ) (C : Matrix (Fin n) (Fin n) ℚ) (b : Fin n → ℚ) :
    Except String (Fin n → ℚ) :=
  if C.det = 0 then Except.error "Singular matrix"
  else Except.ok (Matrix.mulVec ((C.det)⁻¹ • C.adjugate) b)

/-- Sort key of `ColleyMatrixIndex.calculate`: rating descending then name
ascending (`key=lambda x: (-x[1], x[0])`). -/
def ratingRel (a b : String × ℚ) : Prop :=
  b.2 < a.2 ∨ (a.2 = b.2 ∧ nameLe a.1 b.1)

instance : DecidableRel ratingRel := fun a b => by unfold ratingRel; infer_instance

/-- `ColleyMatrixIndex.calculate`
(src/build/lib/ripper/indices/colley_matrix.py): assemble, solve, round
each rating to 2 digits, sort by rating descending / name ascending, and
rank by `enumerate` AFTER sorting (position `i` gets rank `i + 1`). A
solver failure propagates to the caller unchanged. -/
def colley_calculate (ms : List Match) :
    Except String (List (ℕ × String × ℚ)) :=
  match npSolve (colleyN ms) (colleyC ms) (colleyB ms) with
  | Except.error e => Except.error e
  | Except.ok r =>
    let teams := list_team_names ms
    let pairs := teams.zip (List.ofFn fun i => roundTo 2 (r i))
    let sorted_teams := List.insertionSort ratingRel pairs
    Except.ok (sorted_teams.enum.map fun p => (p.1 + 1, p.2.1, p.2.2))

/-- Fixture: the degenerate self-match "A vs A, 1-0, final" — its team
universe is the single name "A", giving a concrete 1-by-1 Colley system
that the solver path can be evaluated on. -/
def selfMatchAA : Match := mkMatch "A" "A" 1 0 none none none "" ""

/-- The 1-by-1 Colley matrix of `selfMatchAA` (definitionally
`colleyC [selfMatchAA]`, stated over `Fin 1`). -/
def colleyC1 : Matrix (Fin 1) (Fin 1) ℚ :=
  Matrix.of fun i j => (colley_build [selfMatchAA]).1 i.1 j.1

/-- The 1-by-1 Colley right-hand side of `selfMatchAA`. -/
def colleyB1 : Fin 1 → ℚ := fun i => (colley_build [selfMatchAA]).2 i.1

/-- Python's `round` on reals, round-half-to-even, for the Elo update
(`src/ripper/elo.py` works on floats throughout). -/
noncomputable def pyRoundR (x : ℝ) : ℤ :=
  haveI : Decidable (Int.fract x = 1/2) := Classical.propDecidable _
  if Int.fract x = 1/2 then (if Even ⌊x⌋ then ⌊x⌋ else ⌊x⌋ + 1) else round x

/-- Modelled from the spec: `ripper/constants.py` (imported by
src/ripper/elo.py for `K_FACTOR`) is not present under src/; the spec only
says ratings are updated by `R + K*(S - E)`. The standard Elo K-factor 32
is used. -/
def K_FACTOR : ℝ := 32

/-- Modelled from the spec: `ripper/constants.py` (imported by
src/ripper/elo.py for `INITIAL_RATING`) is not present under src/; the
spec says every team starts from one fixed constant. The standard Elo
initial rating 1500 is used. -/
def INITIAL_RATING : ℤ := 1500

/-- `expected_score` (src/ripper/elo.py): the logistic expectation
`1 / (1 + 10 ** ((rating_b - rating_a) / 400))`. -/
noncomputable def expected_score (rating_a rating_b : ℤ) : ℝ :=
  1 / (1 + (10 : ℝ) ^ (((rating_b - rating_a : ℤ) : ℝ) / 400))

/-- `update_ratings` (src/ripper/elo.py): `R + K*(S - E)` for both sides,
rounded to the nearest integer (Python `round`). -/
noncomputable def update_ratings (rating_a rating_b : ℤ) (score_a score_b : ℝ) :
    ℤ × ℤ :=
  let expected_a := expected_score rating_a rating_b
  let expected_b := expected_score rating_b rating_a
  (pyRoundR ((rating_a : ℝ) + K_FACTOR * (score_a - expected_a)),
   pyRoundR ((rating_b : ℝ) + K_FACTOR * (score_b - expected_b)))

/-- `process_matches_with_elo` (src/ripper/elo.py): every team starts at
`INITIAL_RATING` (the dict over the team set is modelled as a total
function — lookups only ever happen at match participants); matches are
processed in input order, unfinished ones skipped; draws score `0.5/0.5`,
otherwise the winner scores 1 and the other side 0; the simultaneous
assignment writes home first, away last. -/
noncomputable def process_matches_with_elo (ms : List Match) : String → ℤ :=
  ms.foldl (fun ratings m =>
    if !m.is_finished then ratings
    else
      let scores : ℝ × ℝ :=
        if m.is_draw then (1/2, 1/2)
        else ((if m.winner == some m.home_team then 1 else 0),
              (if m.winner == some m.away_team then 1 else 0))
      let updated := update_ratings (ratings m.home_team) (ratings m.away_team)
        scores.1 scores.2
      fun t => if t = m.away_team then updated.2
               else if t = m.home_team then updated.1
               else ratings t)
    (fun _ => INITIAL_RATING)

/-- A Python value reaching the pydantic `Score` validator
(src/build/lib/ripper/models/score.py): an int, a string, `None`, or
anything else. -/
inductive PyVal where
  | vInt (n : ℤ)
  | vStr (s : String)
  | vNone
  | vOther
deriving DecidableEq

/-- `Score.convert_to_int` (src/build/lib/ripper/models/score.py): empty
string to 0, numeric string parsed, int passed through, everything else
(including `None`) raises `ValueError`. -/
def convert_to_int : PyVal → Except String ℤ
  | .vStr s =>
    if s = "" then Except.ok 0
    else match s.toInt? with
         | some n => Except.ok n
         | none => Except.error "invalid literal for int"
  | .vInt n => Except.ok n
  | _ => Except.error "Invalid value"

/-- The validated pydantic `Score`. The declared field type is `int`; the
fields are `Option ℤ` here because `check_scores` downstream tests them
against `None` — `mkScore` only ever produces `some` values. -/
structure Score where
  home : Option ℤ
  away : Option ℤ
deriving DecidableEq

/-- `Score` construction: an omitted field takes the declared default 0
(pydantic does not run the `before`-validator on defaults); a provided
value goes through `convert_to_int`. -/
def mkScore (h a : Option PyVal) : Except String Score :=
  match (match h with | none => Except.ok 0 | some v => convert_to_int v :
      Except String ℤ) with
  | Except.error e => Except.error e
  | Except.ok hv =>
    match (match a with | none => Except.ok 0 | some v => convert_to_int v :
        Except String ℤ) with
    | Except.error e => Except.error e
    | Except.ok av => Except.ok { home := some hv, away := some av }

/-- The pydantic `Match` of src/build/lib/ripper/models/match.py (fields
irrelevant to score validation elided to the ones `check_scores` uses). -/
structure MatchB where
  home : String
  away : String
  score : Score
  status : Option String
deriving DecidableEq

/-- `Match` construction through pydantic: build the `Score` (defaulting
omitted components to 0), then run the `check_scores` model validator
(src/build/lib/ripper/models/match.py lines 34-40): pass when status is
`'pre'`, otherwise raise when either score component is `None`. -/
def mkMatchB (home away : String) (sh sa : Option PyVal)
    (status : Option String) : Except String MatchB :=
  match mkScore sh sa with
  | Except.error e => Except.error e
  | Except.ok s =>
    if status = some "pre" then
      Except.ok { home := home, away := away, score := s, status := status }
    else if s.home = none ∨ s.away = none then
      Except.error "home and away cannot be empty unless status is pre"
    else Except.ok { home := home, away := away, score := s, status := status }

/-- The number of decided matches (wins + losses + draws) of opponent `o`
with `target` excluded — the quantity the specification's OWP step 2 tests
against zero. -/
def decided_excluding (ms : List Match) (target o : String) : ℕ :=
  get_wins_for_team ms o (some target) + get_losses_for_team ms o (some target)
    + get_draws_for_team ms o (some target)

/-- The specification's "opponent's own win percentage computed with the
target team excluded from that opponent's record":
`(wins + draws/2) / decided`, unrounded. -/
def wp_excluding (ms : List Match) (target o : String) : ℚ :=
  ((get_wins_for_team ms o (some target) : ℚ)
      + (get_draws_for_team ms o (some target) : ℚ) / 2)
    / (decided_excluding ms target o : ℚ)

/-- OWP as the specification words it: over the SET of distinct opponents,
opponents with zero decided matches (after excluding the target)
contribute nothing to the weighted sum nor to the total meeting count;
otherwise each contributes its excluded win percentage weighted by the
meeting count; the result is 0 when the total meeting count is 0, else
the rounded weighted average. -/
def owp_spec (ms : List Match) (target : String) (nd : ℕ) : ℚ :=
  let opps := (get_opponents ms target).toFinset
  let total : ℕ := ∑ o in opps,
    if decided_excluding ms target o = 0 then 0 else get_meeting_count target o ms
  let weighted : ℚ := ∑ o in opps,
    if decided_excluding ms target o = 0 then 0
    else wp_excluding ms target o * (get_meeting_count target o ms : ℚ)
  if total = 0 then 0 else roundTo nd (weighted / (total : ℚ))

/-- The opponent list as the claim words it: one entry (the opposing
team's name) per match containing the team, in input order, regardless of
completion status. -/
def claimed_opponents (ms : List Match) (team : String) : List String :=
  (ms.filter fun m => m.contains team).map fun m =>
    if m.home_team = team then m.away_team else m.home_team

lemma nodup_list_team_names (ms : List Match) : (list_team_names ms).Nodup :=
  (List.perm_insertionSort nameLe _).nodup_iff.mpr
    (List.nodup_dedup (ms.flatMap fun m => [m.home_team, m.away_team]))

lemma sum_map_filterMap {α β γ : Type} [AddCommMonoid γ] (l : List α)
    (f : α → Option β) (g : β → γ) :
    ((l.filterMap f).map g).sum
      = (l.map fun a => ((f a).map g).getD 0).sum := by
  induction l with
  | nil => rfl
  | cons a t ih => cases h : f a <;> simp [List.filterMap_cons, h, ih]

lemma pyRoundR_intCast (n : ℤ) : pyRoundR (n : ℝ) = n := by
  unfold pyRoundR
  rw [if_neg, round_intCast]
  norm_num [Int.fract_intCast]

lemma expected_score_self (r : ℤ) : expected_score r r = 1/2 := by
  unfold expected_score
  simp [Real.rpow_zero]
  norm_num

lemma update_ratings_equal_win (r : ℤ) : update_ratings r r 1 0 = (r + 16, r - 16) := by
  have h1 : (r : ℝ) + K_FACTOR * (1 - expected_score r r) = ((r + 16 : ℤ) : ℝ) := by
    rw [expected_score_self]; unfold K_FACTOR; push_cast; ring
  have h2 : (r : ℝ) + K_FACTOR * (0 - expected_score r r) = ((r - 16 : ℤ) : ℝ) := by
    rw [expected_score_self]; unfold K_FACTOR; push_cast; ring
  show (pyRoundR ((r : ℝ) + K_FACTOR * (1 - expected_score r r)),
        pyRoundR ((r : ℝ) + K_FACTOR * (0 - expected_score r r))) = (r + 16, r - 16)
  rw [h1, h2, pyRoundR_intCast, pyRoundR_intCast]

lemma update_ratings_equal_loss (r : ℤ) : update_ratings r r 0 1 = (r - 16, r + 16) := by
  have h1 : (r : ℝ) + K_FACTOR * (0 - expected_score r r) = ((r - 16 : ℤ) : ℝ) := by
    rw [expected_score_self]; unfold K_FACTOR; push_cast; ring
  have h2 : (r : ℝ) + K_FACTOR * (1 - expected_score r r) = ((r + 16 : ℤ) : ℝ) := by
    rw [expected_score_self]; unfold K_FACTOR; push_cast; ring
  show (pyRoundR ((r : ℝ) + K_FACTOR * (0 - expected_score r r)),
        pyRoundR ((r : ℝ) + K_FACTOR * (1 - expected_score r r))) = (r - 16, r + 16)
  rw [h1, h2, pyRoundR_intCast, pyRoundR_intCast]

lemma mkScore_fields (sh sa : Option PyVal) (sc : Score)
    (h : mkScore sh sa = Except.ok sc) : sc.home ≠ none ∧ sc.away ≠ none := by
  unfold mkScore at h
  have step : ∀ (x y : Except String ℤ),
      (match x with
       | Except.error e => Except.error e
       | Except.ok hv =>
         match y with
         | Except.error e => Except.error e
         | Except.ok av => Except.ok { home := some hv, away := some av : Score })
        = Except.ok sc
      → sc.home ≠ none ∧ sc.away ≠ none := by
    intro x y hxy
    cases x with
    | error e => cases hxy
    | ok hv =>
      cases y with
      | error e => cases hxy
      | ok av =>
        cases hxy
        simp
  exact step _ _ h

/-- C1: the claim says `wp`, `owp` and `oowp` all return 0 on degenerate
input and never throw. In `src/rpi/calculations.py` only `owp` is guarded:
`wp` divides by `wins+losses+draws` and `oowp` divides by the total
meeting count without any zero test, so both raise `ZeroDivisionError`
for a team with zero decided matches (shown on the empty match list and
on a lone pre-game match). The sibling implementation
`src/build/lib/ripper/calculations.py` guards all three, which marks the
missing guards as slips rather than intent. -/
theorem c1_wp_oowp_raise_on_zero :
    wp [] "A" none 2 = Except.error "ZeroDivisionError"
    ∧ owp [] "A" 2 = 0
    ∧ oowp [] "A" 2 = Except.error "ZeroDivisionError"
    ∧ wp [mkMatch "A" "B" 0 0 none none (some "pre") "" ""] "A" none 2
        = Except.error "ZeroDivisionError"
    ∧ oowp [mkMatch "A" "B" 0 0 none none (some "pre") "" ""] "A" 2
        = Except.error "ZeroDivisionError" :=
  ⟨rfl, by decide, rfl, rfl, rfl⟩

/-- C4: on the single final match A vs B, 1-1, the claim expects
`[(1,"A",1),(2,"B",1)]` from DrawsIndex and `[(1,"A",0),(2,"B",0)]` from
WinsIndex with no exception. The code raises on both: `WinsIndex` indexes
`team_wins[match.winner()]` with `winner() = None` (KeyError), and
`DrawsIndex` sorts its intermediate list with `key=lambda x: (x[2], x[1])`
over 2-tuples (IndexError) — the repo's own
`tests/unit/indices/test_draws.py` asserts the claimed output. -/
theorem c4_draw_scenario_crashes :
    wins_index_calculate [mkMatch "A" "B" 1 1 none none none "" ""]
      = Except.error "KeyError"
    ∧ draws_index_calculate [mkMatch "A" "B" 1 1 none none none "" ""]
      = Except.error "IndexError: tuple index out of range" := by
  exact ⟨by decide, by decide⟩

/-- C9: the claim says a non-pre-game match with a missing score component
fails construction while the same construction succeeds for pre-game. In
the code an omitted score component silently takes the pydantic default 0
(the `before`-validator does not run on defaults), so construction with
status `'final'` and no scores SUCCEEDS with a 0-0 score — the
`check_scores` guard, whose own message promises the claimed failure, can
never fire because validated score fields are never `None`. Conversely an
explicitly `None` score component fails `Score` validation even when
status is `'pre'`. -/
theorem c9_missing_scores_construction :
    mkMatchB "A" "B" none none (some "final")
      = Except.ok { home := "A", away := "B",
                    score := { home := some 0, away := some 0 },
                    status := some "final" }
    ∧ mkMatchB "A" "B" (some PyVal.vNone) (some (PyVal.vInt 1)) (some "pre")
      = Except.error "Invalid value"
    ∧ mkMatchB "A" "B" (some (PyVal.vStr "")) (some (PyVal.vStr "")) (some "live")
      = Except.ok { home := "A", away := "B",
                    score := { home := some 0, away := some 0 },
                    status := some "live" } :=
  ⟨rfl, rfl, rfl⟩

/-- C3 counterexample: on the single final match "B beats A 2-0",
`WinsIndex.calculate` returns `[(2,"B",1),(1,"A",0)]` — the first entry of
the sorted output carries rank 2, not 1, because ranks are assigned by
enumeration BEFORE sorting. The claim's "rank stored in the i-th entry is
exactly i+1" is false. -/
theorem c3_counterexample :
    wins_index_calculate [mkMatch "B" "A" 2 0 none none none "" ""]
      = Except.ok [(2, "B", 1), (1, "A", 0)] := by decide

/-- C5 counterexample: on the single drawn match A vs B 1-1 the claim says
b keeps its initial value (1, 1); the code's `else` branch treats the draw
like an away win, so b becomes (1/2, 3/2). -/
theorem c5_counterexample :
    (colley_build [mkMatch "A" "B" 1 1 none none none "" ""]).2 0 = 1/2
    ∧ (colley_build [mkMatch "A" "B" 1 1 none none none "" ""]).2 1 = 3/2 := by
  constructor
  · have h : (colley_build [mkMatch "A" "B" 1 1 none none none "" ""]).2 0
        = 1 + (-(1/2)) := rfl
    rw [h]; norm_num
  · have h : (colley_build [mkMatch "A" "B" 1 1 none none none "" ""]).2 1
        = 1 + 1/2 := rfl
    rw [h]; norm_num

/-- C7 counterexample: a degenerate self-match (home and away both the
team) contributes TWO entries to `get_opponents`, not the claimed one
entry per match containing the team. -/
theorem c7_counterexample :
    get_opponents [mkMatch "A" "A" 1 0 none none none "" ""] "A" = ["A", "A"]
    ∧ claimed_opponents [mkMatch "A" "A" 1 0 none none none "" ""] "A" = ["A"] := by
  exact ⟨by decide, by decide⟩
/-- C7 (amended): provided no match lists the same name on both sides,
`get_opponents` returns exactly the opposing team's name for every match
containing the team — regardless of completion status — one entry per such
match in input order, and matches not containing the team contribute
nothing even when finished. (A degenerate self-match contributes two
entries, see the counterexample.) -/
theorem c7_amended (ms : List Match) (team : String)
    (h : ∀ m ∈ ms, ¬(m.home_team = team ∧ m.away_team = team)) :
    get_opponents ms team = claimed_opponents ms team := by
  induction ms with
  | nil => rfl
  | cons m rest ih =>
    have hm := h m (List.mem_cons_self m rest)
    have ihr := ih fun x hx => h x (List.mem_cons_of_mem m hx)
    show (if !m.is_finished && !m.contains team then []
          else (if m.home_team = team then [m.away_team] else [])
            ++ (if m.away_team = team then [m.home_team] else []))
        ++ get_opponents rest team = claimed_opponents (m :: rest) team
    unfold claimed_opponents
    rw [List.filter_cons]
    by_cases hc : m.contains team = true
    · by_cases hh : m.home_team = team
      · have hna : ¬(m.away_team = team) := fun ha => hm ⟨hh, ha⟩
        simp only [hc, Bool.not_true, Bool.and_false, Bool.false_eq_true,
          if_false, if_pos hh, if_neg hna, List.append_nil, if_true,
          List.map_cons, List.singleton_append]
        rw [ihr]
        rfl
      · have hha : m.away_team = team := by
          rcases (by simpa [Match.contains] using hc :
              team = m.home_team ∨ team = m.away_team) with h1 | h1
          · exact absurd h1.symm hh
          · exact h1.symm
        simp only [hc, Bool.not_true, Bool.and_false, Bool.false_eq_true,
          if_false, if_neg hh, if_pos hha, List.nil_append, if_true,
          List.map_cons, List.singleton_append]
        rw [ihr]
        rfl
    · have hcc : m.contains team = false := by
        cases hcv : m.contains team
        · rfl
        · exact absurd hcv hc
      have hh : ¬(m.home_team = team) := by
        intro he
        apply hc
        simp [Match.contains, he]
      have hha : ¬(m.away_team = team) := by
        intro he
        apply hc
        simp [Match.contains, he]
      simp only [hcc, if_neg hh, if_neg hha, List.append_nil, ite_self,
        List.nil_append, Bool.false_eq_true, if_false]
      exact ihr

/-- C7 witness: a mixed list (a finished match with the team, a pre-game
match with the team, a finished match without the team) instantiating the
amended claim. -/
theorem c7_witness :
    get_opponents
        [mkMatch "A" "B" 1 0 none none none "" "",
         mkMatch "E" "A" 0 0 none none (some "pre") "" "",
         mkMatch "B" "C" 2 0 none none none "" ""] "A"
      = claimed_opponents
        [mkMatch "A" "B" 1 0 none none none "" "",
         mkMatch "E" "A" 0 0 none none (some "pre") "" "",
         mkMatch "B" "C" 2 0 none none none "" ""] "A" :=
  c7_amended _ _ (by decide)

/-- C5 (amended): every match (no finished-status check) bumps both
diagonal entries by +1 and both cross entries by -1 and leaves the rest of
C unchanged; b is adjusted +0.5 for home / -0.5 for away when the home
score is strictly greater, and -0.5 for home / +0.5 for away OTHERWISE —
so an away win credits the winner +0.5 and debits the loser -0.5 as the
claim says, but a drawn match is treated like an away win instead of the
claimed no-adjustment. -/
theorem c5_amended (hi ai : ℕ) (hs av : ℤ) (C : ℕ → ℕ → ℚ) (b : ℕ → ℚ)
    (hne : hi ≠ ai) :
    ((colley_update hi ai hs av C b).1 hi hi = C hi hi + 1
      ∧ (colley_update hi ai hs av C b).1 ai ai = C ai ai + 1
      ∧ (colley_update hi ai hs av C b).1 hi ai = C hi ai - 1
      ∧ (colley_update hi ai hs av C b).1 ai hi = C ai hi - 1)
    ∧ (∀ x y, ¬(x = hi ∧ y = hi) → ¬(x = ai ∧ y = ai) → ¬(x = hi ∧ y = ai) →
        ¬(x = ai ∧ y = hi) → (colley_update hi ai hs av C b).1 x y = C x y)
    ∧ (hs > av → (colley_update hi ai hs av C b).2 hi = b hi + 1/2
        ∧ (colley_update hi ai hs av C b).2 ai = b ai - 1/2)
    ∧ (¬hs > av → (colley_update hi ai hs av C b).2 hi = b hi - 1/2
        ∧ (colley_update hi ai hs av C b).2 ai = b ai + 1/2)
    ∧ (∀ x, x ≠ hi → x ≠ ai → (colley_update hi ai hs av C b).2 x = b x) := by
  have hne2 : ai ≠ hi := Ne.symm hne
  unfold colley_update upd1 upd2
  refine ⟨⟨?_, ?_, ?_, ?_⟩, ?_, ?_, ?_, ?_⟩
  · simp [hne, hne2]
  · simp [hne, hne2]
  · simp [hne, hne2]
    ring
  · simp [hne, hne2]
    ring
  · intro x y h1 h2 h3 h4
    simp [h1, h2, h3, h4]
  · intro hgt
    rw [if_pos hgt]
    constructor
    · simp [hne, hne2]
    · simp [hne, hne2]
      ring
  · intro hgt
    rw [if_neg hgt]
    constructor
    · simp [hne, hne2]
      ring
    · simp [hne, hne2]
  · intro x h1 h2
    split
    · simp [h1, h2]
    · simp [h1, h2]

/-- C5 witness: the amended per-match update instantiated at concrete
indices, scores and state. -/
theorem c5_witness :
    ((colley_update 0 1 1 1 (fun x y => if x = y then 2 else 0) (fun _ => 1)).1 0 0
        = (fun x y : ℕ => if x = y then (2 : ℚ) else 0) 0 0 + 1
      ∧ (colley_update 0 1 1 1 (fun x y => if x = y then 2 else 0) (fun _ => 1)).1 1 1
        = (fun x y : ℕ => if x = y then (2 : ℚ) else 0) 1 1 + 1
      ∧ (colley_update 0 1 1 1 (fun x y => if x = y then 2 else 0) (fun _ => 1)).1 0 1
        = (fun x y : ℕ => if x = y then (2 : ℚ) else 0) 0 1 - 1
      ∧ (colley_update 0 1 1 1 (fun x y => if x = y then 2 else 0) (fun _ => 1)).1 1 0
        = (fun x y : ℕ => if x = y then (2 : ℚ) else 0) 1 0 - 1)
    ∧ (∀ x y, ¬(x = 0 ∧ y = 0) → ¬(x = 1 ∧ y = 1) → ¬(x = 0 ∧ y = 1) →
        ¬(x = 1 ∧ y = 0) →
        (colley_update 0 1 1 1 (fun x y => if x = y then 2 else 0) (fun _ => 1)).1 x y
          = (fun x y : ℕ => if x = y then (2 : ℚ) else 0) x y)
    ∧ ((1 : ℤ) > 1 →
        (colley_update 0 1 1 1 (fun x y => if x = y then 2 else 0) (fun _ => 1)).2 0
          = (fun _ : ℕ => (1 : ℚ)) 0 + 1/2
        ∧ (colley_update 0 1 1 1 (fun x y => if x = y then 2 else 0) (fun _ => 1)).2 1
          = (fun _ : ℕ => (1 : ℚ)) 1 - 1/2)
    ∧ (¬(1 : ℤ) > 1 →
        (colley_update 0 1 1 1 (fun x y => if x = y then 2 else 0) (fun _ => 1)).2 0
          = (fun _ : ℕ => (1 : ℚ)) 0 - 1/2
        ∧ (colley_update 0 1 1 1 (fun x y => if x = y then 2 else 0) (fun _ => 1)).2 1
          = (fun _ : ℕ => (1 : ℚ)) 1 + 1/2)
    ∧ (∀ x, x ≠ 0 → x ≠ 1 →
        (colley_update 0 1 1 1 (fun x y => if x = y then 2 else 0) (fun _ => 1)).2 x
          = (fun _ : ℕ => (1 : ℚ)) x) :=
  c5_amended 0 1 1 1 (fun x y => if x = y then 2 else 0) (fun _ => 1) (by decide)

/-- C6: a singular system is surfaced to the caller as the one
identifiable failure `"Singular matrix"` (numpy's `LinAlgError`), and
`ColleyMatrixIndex.calculate` propagates exactly that failure rather than
defaulting the ratings: its only possible error is the singular-matrix
one, and whenever it returns a ranking at all the solved system was
nonsingular. -/
theorem c6_singular_surfaced :
    (∀ (n : ℕ) (C : Matrix (Fin n) (Fin n) ℚ) (b : Fin n → ℚ),
        C.det = 0 → npSolve n C b = Except.error "Singular matrix")
    ∧ (∀ ms e, colley_calculate ms = Except.error e → e = "Singular matrix")
    ∧ (∀ ms l, colley_calculate ms = Except.ok l → (colleyC ms).det ≠ 0) := by
  refine ⟨fun n C b h => by rw [npSolve, if_pos h], fun ms e h => ?_,
    fun ms l h => ?_⟩
  · unfold colley_calculate at h
    split at h
    · rename_i e2 heq
      cases h
      unfold npSolve at heq
      split at heq
      · cases heq
        rfl
      · cases heq
    · cases h
  · unfold colley_calculate at h
    split at h
    · cases h
    · rename_i r heq
      unfold npSolve at heq
      split at heq
      · cases heq
      · rename_i hd
        exact hd

/-- C6 witness: the singular branch exercised on the concrete 1-by-1 zero
system. -/
theorem c6_witness :
    npSolve 1 (0 : Matrix (Fin 1) (Fin 1) ℚ) (fun _ => 1)
      = Except.error "Singular matrix" :=
  c6_singular_surfaced.1 1 0 (fun _ => 1) (by simp [Matrix.det_fin_one])
/-- C8: for a single non-draw finished match between equal-rated teams the
Elo update is exactly zero-sum: with `K_FACTOR = 32` the winner gains 16
and the loser loses 16, both at the `update_ratings` level (either side
winning) and through `process_matches_with_elo` on a single finished
non-draw match (all teams start at the same `INITIAL_RATING`). -/
theorem c8_elo_zero_sum :
    (∀ r : ℤ,
        (update_ratings r r 1 0).1 - r = r - (update_ratings r r 1 0).2
        ∧ (update_ratings r r 1 0).1 = r + 16
        ∧ (update_ratings r r 0 1).2 - r = r - (update_ratings r r 0 1).1
        ∧ (update_ratings r r 0 1).2 = r + 16)
    ∧ (∀ m : Match, m.is_finished = true → m.home_team ≠ m.away_team →
        m.home_score ≠ m.away_score →
        process_matches_with_elo [m] m.home_team - INITIAL_RATING
          = INITIAL_RATING - process_matches_with_elo [m] m.away_team) := by
  constructor
  · intro r
    rw [update_ratings_equal_win r, update_ratings_equal_loss r]
    refine ⟨by ring, rfl, by ring, rfl⟩
  · intro m hfin hne hsc
    have hdraw : m.is_draw = false := by
      unfold Match.is_draw
      rw [hfin]
      simp [hsc]
    unfold process_matches_with_elo
    rw [List.foldl_cons, List.foldl_nil, hfin]
    simp only [Bool.not_true, Bool.false_eq_true, if_false, hdraw]
    rcases lt_or_gt_of_ne hsc with hlt | hgt
    · have hw : m.winner = some m.away_team := by
        unfold Match.winner
        rw [hfin]
        simp only [Bool.not_true, Bool.false_eq_true, if_false]
        rw [if_neg (by omega), if_pos hlt]
      rw [hw]
      simp only [beq_iff_eq, Option.some.injEq, eq_self_iff_true, if_true,
        hne, Ne.symm hne, if_false]
      rw [update_ratings_equal_loss INITIAL_RATING]
      ring
    · have hw : m.winner = some m.home_team := by
        unfold Match.winner
        rw [hfin]
        simp only [Bool.not_true, Bool.false_eq_true, if_false]
        rw [if_pos hgt]
      rw [hw]
      simp only [beq_iff_eq, Option.some.injEq, eq_self_iff_true, if_true,
        hne, Ne.symm hne, if_false]
      rw [update_ratings_equal_win INITIAL_RATING]
      ring

/-- C8 witness: the zero-sum identity on the concrete finished match "A
beats B 2-0" processed from the initial ratings. -/
theorem c8_witness :
    process_matches_with_elo [mkMatch "A" "B" 2 0 none none none "" ""]
        (mkMatch "A" "B" 2 0 none none none "" "").home_team - INITIAL_RATING
      = INITIAL_RATING
        - process_matches_with_elo [mkMatch "A" "B" 2 0 none none none "" ""]
            (mkMatch "A" "B" 2 0 none none none "" "").away_team :=
  c8_elo_zero_sum.2 (mkMatch "A" "B" 2 0 none none none "" "")
    (by decide) (by decide) (by decide)

/-- C10: a `Match` constructed with `game_state` omitted (`none`) or falsy
(`some ""`) gets `game_state = "final"`, so `is_finished` holds and
`is_upcoming` does not, and the counting functions treat such a match as a
completed result (a 1-1 score counts as a draw, a home win counts as a
win) — callers who omit the status never produce an upcoming match. -/
theorem c10_default_game_state :
    (∀ home away hs av sd st nowd nowt,
        (mkMatch home away hs av sd st none nowd nowt).game_state = "final"
        ∧ (mkMatch home away hs av sd st none nowd nowt).is_finished = true
        ∧ (mkMatch home away hs av sd st none nowd nowt).is_upcoming = false
        ∧ (mkMatch home away hs av sd st (some "") nowd nowt).game_state = "final")
    ∧ (∀ home away hs av, hs = av →
        get_draws_for_team [mkMatch home away hs av none none none "" ""] home none
          = 1)
    ∧ (∀ home away hs av, hs > av →
        get_wins_for_team [mkMatch home away hs av none none none "" ""] home none
          = 1) := by
  refine ⟨fun home away hs av sd st nowd nowt => ⟨rfl, rfl, rfl, rfl⟩,
    fun home away hs av h => ?_, fun home away hs av h => ?_⟩
  · unfold get_draws_for_team
    rw [List.countP_cons, List.countP_nil]
    have hd : (mkMatch home away hs av none none none "" "").is_draw = true := by
      unfold Match.is_draw Match.is_finished mkMatch
      simp [h]
    simp only [mkMatch] at hd ⊢
    simp [Match.is_finished, Match.contains, skipGuard, hd]
  · unfold get_wins_for_team
    rw [List.countP_cons, List.countP_nil]
    have hw : (mkMatch home away hs av none none none "" "").winner = some home := by
      unfold Match.winner Match.is_finished mkMatch
      simp [h]
    simp only [mkMatch] at hw ⊢
    simp [Match.is_finished, Match.contains, skipGuard, hw]

/-- C10 witness: the counting conjuncts instantiated on concrete drawn and
won matches. -/
theorem c10_witness :
    get_draws_for_team [mkMatch "A" "B" 1 1 none none none "" ""] "A" none = 1
    ∧ get_wins_for_team [mkMatch "C" "D" 2 0 none none none "" ""] "C" none = 1 :=
  ⟨c10_default_game_state.2.1 "A" "B" 1 1 rfl,
   c10_default_game_state.2.2 "C" "D" 2 0 (by decide)⟩
lemma toFinset_dedup_list {α : Type} [DecidableEq α] (l : List α) :
    l.dedup.toFinset = l.toFinset := by
  ext a
  simp [List.mem_toFinset, List.mem_dedup]

lemma owp_entry_eq (ms : List Match) (target o : String) :
    owp_entry ms target o
      = if decided_excluding ms target o = 0 then none
        else some (o, wp_excluding ms target o) := rfl

/-- C2: `owp` computes exactly the specification's weighted average: over
the set of distinct opponents, each opponent with a nonzero decided count
(target excluded) contributes its excluded win percentage weighted by the
meeting count, zero-decided opponents contribute to neither sum, and the
result is 0 when the total meeting count is 0, else the rounded weighted
average. -/
theorem c2_owp_eq_spec (ms : List Match) (target : String) (nd : ℕ) :
    owp ms target nd = owp_spec ms target nd := by
  have hnd := List.nodup_dedup (get_opponents ms target)
  have hfin : (get_opponents ms target).dedup.toFinset
      = (get_opponents ms target).toFinset := toFinset_dedup_list _
  have hW : (((get_opponents ms target).dedup.filterMap (owp_entry ms target)).map
        (fun p => get_meeting_count target p.1 ms)).sum
      = ∑ o in (get_opponents ms target).toFinset,
          (if decided_excluding ms target o = 0 then 0
           else get_meeting_count target o ms) := by
    rw [sum_map_filterMap]
    have hAB : (fun o => (((owp_entry ms target o).map
          (fun p => get_meeting_count target p.1 ms)).getD 0))
        = fun o => if decided_excluding ms target o = 0 then 0
            else get_meeting_count target o ms := by
      funext o
      rw [owp_entry_eq]
      by_cases hz : decided_excluding ms target o = 0 <;> simp [hz]
    rw [hAB, ← hfin, List.sum_toFinset _ hnd]
  have hS : (((get_opponents ms target).dedup.filterMap (owp_entry ms target)).map
        (fun p => p.2 * (get_meeting_count target p.1 ms : ℚ))).sum
      = ∑ o in (get_opponents ms target).toFinset,
          (if decided_excluding ms target o = 0 then 0
           else wp_excluding ms target o * (get_meeting_count target o ms : ℚ)) := by
    rw [sum_map_filterMap]
    have hAB : (fun o => (((owp_entry ms target o).map
          (fun p => p.2 * (get_meeting_count target p.1 ms : ℚ))).getD 0))
        = fun o => if decided_excluding ms target o = 0 then 0
            else wp_excluding ms target o * (get_meeting_count target o ms : ℚ) := by
      funext o
      rw [owp_entry_eq]
      by_cases hz : decided_excluding ms target o = 0 <;> simp [hz]
    rw [hAB, ← hfin, List.sum_toFinset _ hnd]
  simp only [owp, owp_spec]
  rw [hW, hS]
lemma map_fst_enum_map_succ {α β : Type} (xs : List α) (g : ℕ × α → β)
    (r : β → ℕ) (hr : ∀ p, r (g p) = p.1 + 1) :
    (xs.enum.map g).map r = List.range' 1 xs.length := by
  rw [List.map_map]
  have h3 : (r ∘ g) = (fun i => i + 1) ∘ Prod.fst := funext fun p => by simp [hr p]
  rw [h3, ← List.map_map, List.enum_map_fst, List.range'_eq_map_range]
  simp [Nat.add_comm]

lemma home_away_mem_team_names (ms : List Match) (m : Match) (hm : m ∈ ms) :
    m.home_team ∈ list_team_names ms ∧ m.away_team ∈ list_team_names ms := by
  unfold list_team_names
  constructor <;>
  · rw [(List.perm_insertionSort nameLe _).mem_iff, List.mem_dedup]
    exact List.mem_flatMap.mpr ⟨m, hm, by simp⟩

lemma winner_mem_team_names (ms : List Match) (m : Match) (w : String)
    (hm : m ∈ ms) (hw : m.winner = some w) : w ∈ list_team_names ms := by
  unfold Match.winner at hw
  split at hw
  · cases hw
  · split at hw
    · cases hw
      exact (home_away_mem_team_names ms m hm).1
    · split at hw
      · cases hw
        exact (home_away_mem_team_names ms m hm).2
      · cases hw

lemma wins_fold_error_of_none (ms' : List Match) :
    ∀ (teams : List String) (init : String → ℕ),
      (∀ m ∈ ms', ∀ w, m.winner = some w → w ∈ teams) →
      (∃ m ∈ ms', m.winner = none) →
      List.foldlM (fun counts m =>
        match m.winner with
        | none => Except.error "KeyError"
        | some w =>
          if w ∈ teams then
            Except.ok (fun x => if x = w then counts x + 1 else counts x)
          else Except.error "KeyError") init ms' = Except.error "KeyError" := by
  induction ms' with
  | nil =>
    intro teams init hmem hex
    rcases hex with ⟨m, hm, _⟩
    cases hm
  | cons m rest ih =>
    intro teams init hmem hex
    rw [List.foldlM_cons]
    cases hw : m.winner with
    | none => rfl
    | some w =>
      have hwmem : w ∈ teams := hmem m (List.mem_cons_self m rest) w hw
      simp only [hwmem, if_true]
      have hex2 : ∃ m2 ∈ rest, m2.winner = none := by
        rcases hex with ⟨m2, hm2, hn⟩
        rcases List.mem_cons.mp hm2 with heq | h2
        · subst heq
          rw [hw] at hn
          cases hn
        · exact ⟨m2, h2, hn⟩
      exact ih teams _
        (fun m2 hm2 w2 hw2 => hmem m2 (List.mem_cons_of_mem m hm2) w2 hw2) hex2

/-- C3 (amended): whenever an index returns a list at all, that list has
one entry per distinct team name and its ranks are a permutation of
1..T. For `ColleyMatrixIndex` the i-th entry of the sorted output does
carry rank i+1 (ranks assigned after sorting), but for `WinsIndex` the
rank stored with each entry is the team's 1-based position in the
alphabetical (pre-sort) enumeration, not the sorted position — see the
counterexample — and `WinsIndex` raises `KeyError` whenever some match has
no winner. -/
theorem c3_amended :
    (∀ ms l, wins_index_calculate ms = Except.ok l →
        l.length = (list_team_names ms).length
        ∧ (l.map fun e => e.1).Perm (List.range' 1 (list_team_names ms).length)
        ∧ ∀ e ∈ l, e.1 = (list_team_names ms).indexOf e.2.1 + 1)
    ∧ (∀ ms, (∃ m ∈ ms, m.winner = none) →
        wins_index_calculate ms = Except.error "KeyError")
    ∧ (∀ ms l, colley_calculate ms = Except.ok l →
        l.length = (list_team_names ms).length
        ∧ (l.map fun e => e.1).Perm (List.range' 1 (list_team_names ms).length)
        ∧ ∀ i (hi : i < l.length), (l.get ⟨i, hi⟩).1 = i + 1) := by
  refine ⟨?_, ?_, ?_⟩
  · intro ms l h
    unfold wins_index_calculate at h
    split at h
    · cases h
    · rename_i counts hcounts
      cases h
      have hperm : (List.insertionSort winsRel
            ((list_team_names ms).enum.map
              (fun p => (p.1 + 1, p.2, counts p.2)))).Perm
          ((list_team_names ms).enum.map (fun p => (p.1 + 1, p.2, counts p.2))) :=
        List.perm_insertionSort _ _
      refine ⟨?_, ?_, ?_⟩
      · rw [List.length_insertionSort, List.length_map, List.enum_length]
      · have h1 := hperm.map (fun e : ℕ × String × ℕ => e.1)
        rw [map_fst_enum_map_succ (list_team_names ms)
          (fun p => (p.1 + 1, p.2, counts p.2)) (fun e => e.1) (fun p => rfl)] at h1
        exact h1
      · intro e he
        have hepre := hperm.mem_iff.mp he
        obtain ⟨p, hp, hpe⟩ := List.mem_map.mp hepre
        have hget := List.mem_enum_iff_getElem?.mp hp
        obtain ⟨hlt, hgete⟩ := List.getElem?_eq_some.mp hget
        rw [← hpe]
        show p.1 + 1 = (list_team_names ms).indexOf p.2 + 1
        rw [← hgete]
        rw [List.indexOf_getElem (nodup_list_team_names ms) p.1 hlt]
  · intro ms hex
    have herr : wins_counts ms (list_team_names ms) = Except.error "KeyError" :=
      wins_fold_error_of_none ms (list_team_names ms) (fun _ => 0)
        (fun m hm w hw => winner_mem_team_names ms m w hm hw) hex
    unfold wins_index_calculate
    rw [herr]
  · intro ms l h
    unfold colley_calculate at h
    split at h
    · cases h
    · rename_i r heq
      cases h
      have hsl : (List.insertionSort ratingRel
            ((list_team_names ms).zip (List.ofFn fun i => roundTo 2 (r i)))).length
          = (list_team_names ms).length := by
        rw [List.length_insertionSort, List.length_zip, List.length_ofFn]
        unfold colleyN
        exact Nat.min_self _
      refine ⟨?_, ?_, ?_⟩
      · rw [List.length_map, List.enum_length, hsl]
      · rw [map_fst_enum_map_succ
          (List.insertionSort ratingRel
            ((list_team_names ms).zip (List.ofFn fun i => roundTo 2 (r i))))
          (fun p => (p.1 + 1, p.2.1, p.2.2)) (fun e => e.1) (fun p => rfl), hsl]
      · intro i hi
        rw [List.get_eq_getElem, List.getElem_map, List.getElem_enum]

/-- C3 witness: the amended invariants instantiated concretely for all
three clauses — WinsIndex success on "A beats B 2-0" (output
`[(1,"A",1),(2,"B",0)]`), the WinsIndex `KeyError` on the drawn match "A
vs B 1-1", and ColleyMatrixIndex success on the one-team system of
`selfMatchAA`, whose solve evaluates to the single rating 1/2 and output
`[(1,"A",1/2)]`. -/
theorem c3_witness :
    (([(1, "A", 1), (2, "B", 0)] : List (ℕ × String × ℕ)).length
        = (list_team_names [mkMatch "A" "B" 2 0 none none none "" ""]).length
      ∧ (([(1, "A", 1), (2, "B", 0)] : List (ℕ × String × ℕ)).map fun e => e.1).Perm
          (List.range' 1
            (list_team_names [mkMatch "A" "B" 2 0 none none none "" ""]).length)
      ∧ ∀ e ∈ ([(1, "A", 1), (2, "B", 0)] : List (ℕ × String × ℕ)),
          e.1 = (list_team_names
              [mkMatch "A" "B" 2 0 none none none "" ""]).indexOf e.2.1 + 1)
    ∧ wins_index_calculate [mkMatch "A" "B" 1 1 none none none "" ""]
        = Except.error "KeyError"
    ∧ (([(1, "A", (1/2 : ℚ))] : List (ℕ × String × ℚ)).length
        = (list_team_names [selfMatchAA]).length
      ∧ (([(1, "A", (1/2 : ℚ))] : List (ℕ × String × ℚ)).map fun e => e.1).Perm
          (List.range' 1 (list_team_names [selfMatchAA]).length)
      ∧ ∀ i (hi : i < ([(1, "A", (1/2 : ℚ))] : List (ℕ × String × ℚ)).length),
          (([(1, "A", (1/2 : ℚ))] : List (ℕ × String × ℚ)).get ⟨i, hi⟩).1 = i + 1) := by
  have hdet : ¬(colleyC1.det = 0) := by
    rw [Matrix.det_fin_one]
    rw [show colleyC1 0 0 = 2 + 1 + 1 + -1 + -1 from rfl]
    norm_num
  have hr0 : Matrix.mulVec ((colleyC1.det)⁻¹ • colleyC1.adjugate) colleyB1 0
      = 1/2 := by
    rw [Matrix.adjugate_fin_one, Matrix.smul_mulVec_assoc, Matrix.one_mulVec,
      Matrix.det_fin_one]
    rw [show ((colleyC1 0 0)⁻¹ • colleyB1) 0
        = (2 + 1 + 1 + -1 + -1 : ℚ)⁻¹ * (1 + 1/2 + -(1/2)) from rfl]
    norm_num
  have hround : roundTo 2 ((1 : ℚ)/2) = 1/2 := by
    unfold roundTo pyRound
    rw [show ((1 : ℚ)/2) * 10 ^ 2 = ((50 : ℤ) : ℚ) by norm_num]
    rw [Int.fract_intCast, if_neg (by norm_num), round_intCast]
    norm_num
  have hdet2 : ¬((colleyC [selfMatchAA]).det = 0) := hdet
  have hok : npSolve (colleyN [selfMatchAA]) (colleyC [selfMatchAA])
        (colleyB [selfMatchAA])
      = Except.ok (Matrix.mulVec (((colleyC [selfMatchAA]).det)⁻¹
          • (colleyC [selfMatchAA]).adjugate) (colleyB [selfMatchAA])) := by
    unfold npSolve
    rw [if_neg hdet2]
  have hv0 : Matrix.mulVec (((colleyC [selfMatchAA]).det)⁻¹
        • (colleyC [selfMatchAA]).adjugate) (colleyB [selfMatchAA])
        ⟨0, by decide⟩ = 1/2 := hr0
  have hcal : colley_calculate [selfMatchAA]
      = Except.ok [(1, "A", (1/2 : ℚ))] := by
    unfold colley_calculate
    rw [hok]
    show Except.ok [(1, "A", roundTo 2 (Matrix.mulVec
        (((colleyC [selfMatchAA]).det)⁻¹ • (colleyC [selfMatchAA]).adjugate)
        (colleyB [selfMatchAA]) ⟨0, by decide⟩))]
      = Except.ok [(1, "A", (1/2 : ℚ))]
    rw [hv0, hround]
  exact ⟨c3_amended.1 [mkMatch "A" "B" 2 0 none none none "" ""]
      [(1, "A", 1), (2, "B", 0)] (by decide),
    c3_amended.2.1 [mkMatch "A" "B" 1 1 none none none "" ""] (by decide),
    c3_amended.2.2 [selfMatchAA] [(1, "A", (1/2 : ℚ))] hcal⟩
